import Mathlib

/-!
Shallow embedding of `src/AsyncJson.h` (ESPAsyncWebServer JSON adapter).

Byte buffers are modelled as total functions `Nat → Nat` (address to byte);
`size_t` values are `Nat`.  Wherever the C++ code computes `a - b` on
`size_t` the subtraction is only reached in states where `b ≤ a` holds
(established by the invariants proved below for every reachable state), so
Lean's truncated `Nat` subtraction agrees with the machine semantics there.
Null pointers for `request`/`data` are not modelled (the embedded calls are
the ones with live pointers); `malloc` results are passed explicitly as an
`Option` so allocation failure stays expressible.
-/

namespace AsyncJson

/-- Pointwise update of a byte buffer: `d[i] = v`. -/
def updateAt (d : Nat → Nat) (i v : Nat) : Nat → Nat :=
  fun p => if p = i then v else d p

/-- `memcpy(d + off, bytes, bytes.length)`: the buffer after copying `bytes`
starting at offset `off`; all other addresses keep their old byte. -/
def memcpyAt (d : Nat → Nat) (off : Nat) (bytes : List Nat) : Nat → Nat :=
  fun p => if off ≤ p ∧ p < off + bytes.length then bytes.getD (p - off) 0 else d p

/-- The `n` bytes of buffer `d` starting at offset `off`, as a list. -/
def segment (d : Nat → Nat) (off n : Nat) : List Nat :=
  (List.range n).map (fun k => d (off + k))

/-- Embedding of class `ChunkPrint` (fields `_destination`, `_to_skip`,
`_to_write`, `_pos`, `_max_size`). -/
structure ChunkPrint where
  destination : Nat → Nat
  to_skip : Nat
  to_write : Nat
  pos : Nat
  max_size : Nat

/-- The `ChunkPrint(destination, from, len, max_size)` constructor:
`_pos` starts at `0`. -/
def ChunkPrint.init (destination : Nat → Nat) (start len max_size : Nat) : ChunkPrint :=
  ⟨destination, start, len, 0, max_size⟩

/-- `ChunkPrint::write(uint8_t c)`: returns the updated cursor and the
C++ return value. -/
def ChunkPrint.writeByte (cp : ChunkPrint) (c : Nat) : ChunkPrint × Nat :=
  if 0 < cp.to_skip then
    ({ cp with to_skip := cp.to_skip - 1 }, 1)
  else if 0 < cp.to_write ∧ cp.pos < cp.max_size then
    ({ cp with destination := updateAt cp.destination cp.pos c,
               pos := cp.pos + 1,
               to_write := cp.to_write - 1 }, 1)
  else (cp, 0)

/-- `ChunkPrint::write(const uint8_t* buffer, size_t size)`: returns the
updated cursor and the C++ return value.  Note the source returns the size
remaining after the skip-phase decrement (`size -= skip_amount; ... return
size;`), not the original size and not the consumed count. -/
def ChunkPrint.writeBuf (cp : ChunkPrint) (buffer : List Nat) : ChunkPrint × Nat :=
  if buffer.length = 0 then (cp, 0)
  else
    let skip_amount := min cp.to_skip buffer.length
    let cp1 : ChunkPrint := { cp with to_skip := cp.to_skip - skip_amount }
    let rest := buffer.drop skip_amount
    if rest.length = 0 then (cp1, skip_amount)
    else
      let available_space := min cp1.to_write (min (cp1.max_size - cp1.pos) rest.length)
      if 0 < available_space then
        ({ cp1 with destination := memcpyAt cp1.destination cp1.pos (rest.take available_space),
                    pos := cp1.pos + available_space,
                    to_write := cp1.to_write - available_space }, rest.length)
      else (cp1, rest.length)

/-- One call against a `ChunkPrint` cursor: either `write(uint8_t)` or
`write(const uint8_t*, size_t)`. -/
inductive WriteOp where
  | byte (c : Nat)
  | buf (bytes : List Nat)

/-- Run a sequence of `write` calls against a cursor, keeping the final
cursor state. -/
def ChunkPrint.run (cp : ChunkPrint) (ops : List WriteOp) : ChunkPrint :=
  ops.foldl (fun s op =>
    match op with
    | .byte c => (s.writeByte c).1
    | .buf bs => (s.writeBuf bs).1) cp

/-- `MAX_JSON_CONTENT_LENGTH` default. -/
def MAX_JSON_CONTENT_LENGTH : Nat := 16384

/-- `CHUNK_OBJ_SIZE` default. -/
def CHUNK_OBJ_SIZE : Nat := 512

/-- The per-handler accumulator state of `AsyncJsonHandlerBase`
(fields `_maxContentLength`, `_contentLength`, `_tempObject`,
`_tempObjectSize`, `_bufferReady`).  `_tempObject` is `none` for a null
`unique_ptr` and `some buf` for an owned allocation with contents `buf`. -/
structure HandlerState where
  maxContentLength : Nat
  contentLength : Nat
  tempObject : Option (Nat → Nat)
  tempObjectSize : Nat
  bufferReady : Bool

/-- The `AsyncJsonHandlerBase` constructor state (null buffer, size 0,
not ready, `_contentLength = 0`). -/
def HandlerState.initial (maxLen : Nat) : HandlerState :=
  ⟨maxLen, 0, none, 0, false⟩

/-- `AsyncJsonHandlerBase::allocateBuffer(size)`.  `mallocResult` is the
(uninitialised) content of the block `malloc(size)` would hand back, or
`none` when `malloc` fails.  Returns the new state and the C++ return
value. -/
def HandlerState.allocateBuffer (s : HandlerState) (size : Nat)
    (mallocResult : Option (Nat → Nat)) : HandlerState × Bool :=
  if size = 0 ∨ s.maxContentLength < size then (s, false)
  else if s.tempObject.isNone ∨ s.tempObjectSize < size then
    match mallocResult with
    | none => ({ s with tempObject := none, tempObjectSize := 0, bufferReady := false }, false)
    | some fresh =>
      ({ s with tempObject := some fresh, tempObjectSize := size, bufferReady := true }, true)
  else ({ s with bufferReady := true }, true)

/-- The final guarded copy of `handleBody`:
`if (_tempObject && (index + len) <= _tempObjectSize) memcpy(...)`. -/
def HandlerState.bodyCopy (s : HandlerState) (data : List Nat) (index : Nat) : HandlerState :=
  match s.tempObject with
  | none => s
  | some buf =>
    if index + data.length ≤ s.tempObjectSize then
      { s with tempObject := some (memcpyAt buf index data) }
    else s

/-- `AsyncJsonHandlerBase::handleBody(request, data, len, index, total)`.
`data` carries the `len` fragment bytes (`len = data.length`); a null
`request`/`data` is not modelled, so the `len == 0` test is `data = []`.
The short-circuit `if (!_tempObject && !allocateBuffer(total)) return;` is
rendered as explicit branches: when `_tempObject` is null, `allocateBuffer`
runs (with its side effects) and a `false` return ends the call. -/
def HandlerState.handleBody (s : HandlerState) (data : List Nat) (index total : Nat)
    (mallocResult : Option (Nat → Nat)) : HandlerState :=
  if data.length = 0 then s
  else
    let s1 : HandlerState := { s with contentLength := total }
    if s1.maxContentLength < total then s1
    else if s1.tempObject.isNone then
      let alloc := s1.allocateBuffer total mallocResult
      if alloc.2 = false then alloc.1
      else alloc.1.bodyCopy data index
    else s1.bodyCopy data index

/-- `AsyncCallbackJsonWebHandler::cleanup()`. -/
def HandlerState.cleanup (s : HandlerState) : HandlerState :=
  { s with bufferReady := false, tempObject := none, tempObjectSize := 0 }

/-- The terminal outcome a `handleRequest` call sends to the remote
caller. -/
inductive Outcome where
  | noHandler
  | tooLarge
  | invalidBody
  | invalidJson
  | served
  deriving DecidableEq, Repr

/-- HTTP status code of each outcome. -/
def Outcome.status : Outcome → Nat
  | noHandler => 500
  | tooLarge => 413
  | invalidBody => 400
  | invalidJson => 400
  | served => 200

/-- `AsyncCallbackJsonWebHandler::handleRequest(request)`.
`hasHandler` is `_onRequest != nullptr`; `parseOk` is the parser
collaborator's verdict (`parser.parse(...) && !parser.hasError()`).
Returns the outcome sent, the state left behind, and whether the user
callback `_onRequest` was invoked. -/
def HandlerState.handleRequest (s : HandlerState) (hasHandler parseOk : Bool) :
    Outcome × HandlerState × Bool :=
  if hasHandler = false then (.noHandler, s, false)
  else if s.maxContentLength < s.contentLength then (.tooLarge, s, false)
  else if s.bufferReady = false ∨ s.tempObject.isNone ∨ s.contentLength = 0 then
    (.invalidBody, s, false)
  else if parseOk = false then (.invalidJson, s.cleanup, false)
  else (.served, s.cleanup, true)

/-- A handler state that already owns a 10-byte allocation; used to
witness buffer reuse. -/
def reuseState : HandlerState := ⟨16384, 0, some (fun _ => 2), 10, false⟩

/-- A fragment `(index, data)` covers body position `p`. -/
def inFrag (f : Nat × List Nat) (p : Nat) : Prop :=
  f.1 ≤ p ∧ p < f.1 + f.2.length

/-- Two fragments occupy disjoint offset intervals. -/
def FragDisjoint (f g : Nat × List Nat) : Prop :=
  f.1 + f.2.length ≤ g.1 ∨ g.1 + g.2.length ≤ f.1

/-- Deliver a list of fragments to the handler through `handleBody`, each
announcing the same declared total; `fresh` is the content handed back by
the (at most one) successful `malloc`. -/
def feedBody (s : HandlerState) (fresh : Nat → Nat) (total : Nat)
    (frags : List (Nat × List Nat)) : HandlerState :=
  frags.foldl (fun st f => st.handleBody f.2 f.1 total (some fresh)) s

/-- Pure model of one fragment's effect on the contents of a buffer of
capacity `T` (empty fragments are dropped by `handleBody` before reaching
the copy; out-of-bounds fragments are dropped by the bounds check). -/
def applyFrag (T : Nat) (buf : Nat → Nat) (f : Nat × List Nat) : Nat → Nat :=
  if f.2.length = 0 then buf
  else if f.1 + f.2.length ≤ T then memcpyAt buf f.1 f.2 else buf

/-- Cumulative effect of a fragment list on buffer contents. -/
def applyFrags (T : Nat) (buf : Nat → Nat) (frags : List (Nat × List Nat)) : Nat → Nat :=
  frags.foldl (applyFrag T) buf

/-- The session state of `AsyncJsonStreamCallback` on top of the shared
accumulator: `_currentRequest` is modelled as a liveness flag (the pointer
value itself is irrelevant to the control flow) and `_processIndex` is the
chunk cursor.  Timer handles carry no state beyond being armed and are
real-time artefacts, so they are not part of the state. -/
structure StreamState where
  base : HandlerState
  hasCurrentRequest : Bool
  processIndex : Nat

/-- `AsyncJsonStreamCallback::cleanup()`: clears the request pointer and
cursor, then the shared accumulator fields (and detaches the timer). -/
def StreamState.cleanup (st : StreamState) : StreamState :=
  ⟨st.base.cleanup, false, 0⟩

/-- `AsyncJsonStreamCallback::processNextChunk()` driven to completion: the
one-shot timer only interleaves event-loop turns between chunks, so the
chain `processNextChunk → scheduleNextChunk → timer fires →
processNextChunk → ...` is modelled as direct recursion.  `C` is the
compile-time `CHUNK_OBJ_SIZE`.  The guard
`!_currentRequest || !_tempObject || _processIndex >= _tempObjectSize` is
split into the three equivalent and-ordered tests.  The `malloc` of the
scratch chunk copy is assumed to succeed (its failure path only sends 500
and cleans up).  Returns the `(offset, bytes)` slices handed to the user
callback, in invocation order, and the final state. -/
def StreamState.processNextChunk (C : Nat) (st : StreamState) :
    List (Nat × List Nat) × StreamState :=
  match st.base.tempObject with
  | none => ([], st.cleanup)
  | some buf =>
    if st.hasCurrentRequest = false then ([], st.cleanup)
    else if h1 : st.base.tempObjectSize ≤ st.processIndex then ([], st.cleanup)
    else
      let chunk_size := min C (st.base.tempObjectSize - st.processIndex)
      if h2 : chunk_size = 0 then ([], st.cleanup)
      else
        let slice := (st.processIndex, segment buf st.processIndex chunk_size)
        let st1 : StreamState := ⟨st.base, st.hasCurrentRequest, st.processIndex + chunk_size⟩
        if st1.processIndex < st.base.tempObjectSize then
          let rest := st1.processNextChunk C
          (slice :: rest.1, rest.2)
        else ([slice], st1.cleanup)
termination_by st.base.tempObjectSize - st.processIndex
decreasing_by simp_wf; omega

/-- `AsyncJsonStreamCallback::handleRequest(request)` on an ESP target:
the precondition checks, then `_currentRequest = request; _processIndex =
0;` and the chunk chain (ESP32 timer initialisation is assumed to
succeed).  Returns the outcome, the callback slices, and the final
state. -/
def StreamState.handleRequest (C : Nat) (st : StreamState) (hasHandler : Bool) :
    Outcome × List (Nat × List Nat) × StreamState :=
  if hasHandler = false then (.noHandler, [], st)
  else if st.base.maxContentLength < st.base.contentLength then (.tooLarge, [], st)
  else if st.base.bufferReady = false ∨ st.base.tempObject.isNone ∨
      st.base.tempObjectSize = 0 then
    (.invalidBody, [], st)
  else
    let r := (StreamState.mk st.base true 0).processNextChunk C
    (.served, r.1, r.2)

/-- The slice lengths the chunk loop produces over a buffer of capacity
`S` starting at cursor `idx`, with chunk size `C`. -/
def chunkLens (C S idx : Nat) : List Nat :=
  if h : idx < S ∧ 0 < C then
    min C (S - idx) :: chunkLens C S (idx + min C (S - idx))
  else []
termination_by S - idx
decreasing_by simp_wf; omega

/-- The `(offset, bytes)` slices the chunk loop produces from buffer
`buf`. -/
def chunkSlices (C S idx : Nat) (buf : Nat → Nat) : List (Nat × List Nat) :=
  if h : idx < S ∧ 0 < C then
    (idx, segment buf idx (min C (S - idx))) ::
      chunkSlices C S (idx + min C (S - idx)) buf
  else []
termination_by S - idx
decreasing_by simp_wf; omega

/-- Slices appear in ascending, contiguous — hence non-overlapping —
offset order starting at `o`. -/
def consecutiveFrom : Nat → List (Nat × List Nat) → Prop
  | _, [] => True
  | o, x :: rest => x.1 = o ∧ consecutiveFrom (o + x.2.length) rest

/-- State of `AsyncJsonResponse` relevant to `_fillBuffer`: the serialized
JSON text `_jsonBuffer.s` as bytes, `_isValid`, `_contentLength`, and the
base class's cumulative `_sentLength` (advanced only by the transport
layer, never by `_fillBuffer`). -/
structure RespState where
  jsonBuffer : List Nat
  isValid : Bool
  contentLength : Nat
  sentLength : Nat

/-- `AsyncJsonResponse::setLength()`. -/
def RespState.setLength (r : RespState) : RespState × Nat :=
  let len := r.jsonBuffer.length
  ({ r with contentLength := len, isValid := decide (0 < len) }, len)

/-- `AsyncJsonResponse::_fillBuffer(data, len)`: `data` is the caller's
destination buffer (a null `data` is not modelled), `len` its size.
Returns the destination contents after the call, the C++ return value
(`dest.getWrittenBytes()`), and the response state after the call. -/
def RespState.fillBuffer (r : RespState) (data : Nat → Nat) (len : Nat) :
    (Nat → Nat) × Nat × RespState :=
  if len = 0 ∨ r.isValid = false then (data, 0, r)
  else
    let json_size := r.jsonBuffer.length
    if json_size ≤ r.sentLength then (data, 0, r)
    else
      let dest := ChunkPrint.init data 0 len len
      let remaining := json_size - r.sentLength
      let to_write := min len remaining
      let dest1 := (dest.writeBuf ((r.jsonBuffer.drop r.sentLength).take to_write)).1
      (dest1.destination, dest1.pos, r)

@[simp] theorem segment_length (d : Nat → Nat) (off n : Nat) :
    (segment d off n).length = n := by
  simp [segment]

theorem writeByte_preserves (cp : ChunkPrint) (c : Nat) (h : cp.pos ≤ cp.max_size) :
    (cp.writeByte c).1.pos ≤ (cp.writeByte c).1.max_size ∧
    (cp.writeByte c).1.max_size = cp.max_size ∧
    ∀ k, (cp.writeByte c).1.destination (cp.max_size + k) =
      cp.destination (cp.max_size + k) := by
  unfold ChunkPrint.writeByte
  split
  · exact ⟨h, rfl, fun k => rfl⟩
  · split
    · next h2 =>
      dsimp only
      refine ⟨by omega, rfl, fun k => ?_⟩
      simp only [updateAt]
      rw [if_neg (by omega)]
    · exact ⟨h, rfl, fun k => rfl⟩

theorem writeBuf_preserves (cp : ChunkPrint) (bs : List Nat) (h : cp.pos ≤ cp.max_size) :
    (cp.writeBuf bs).1.pos ≤ (cp.writeBuf bs).1.max_size ∧
    (cp.writeBuf bs).1.max_size = cp.max_size ∧
    ∀ k, (cp.writeBuf bs).1.destination (cp.max_size + k) =
      cp.destination (cp.max_size + k) := by
  unfold ChunkPrint.writeBuf
  dsimp only
  split
  · exact ⟨h, rfl, fun k => rfl⟩
  · split
    · exact ⟨h, rfl, fun k => rfl⟩
    · split
      · next havail =>
        dsimp only
        refine ⟨by omega, rfl, fun k => ?_⟩
        simp only [memcpyAt]
        rw [if_neg ?_]
        have hlen : ((bs.drop (min cp.to_skip bs.length)).take
            (min cp.to_write (min (cp.max_size - cp.pos)
              (bs.drop (min cp.to_skip bs.length)).length))).length =
            min (min cp.to_write (min (cp.max_size - cp.pos)
              (bs.drop (min cp.to_skip bs.length)).length))
              (bs.drop (min cp.to_skip bs.length)).length := List.length_take _ _
        omega
      · exact ⟨h, rfl, fun k => rfl⟩

theorem run_preserves (ops : List WriteOp) (cp : ChunkPrint) (h : cp.pos ≤ cp.max_size) :
    (cp.run ops).pos ≤ (cp.run ops).max_size ∧
    (cp.run ops).max_size = cp.max_size ∧
    ∀ k, (cp.run ops).destination (cp.max_size + k) =
      cp.destination (cp.max_size + k) := by
  induction ops generalizing cp with
  | nil => exact ⟨h, rfl, fun k => rfl⟩
  | cons op rest ih =>
    cases op with
    | byte c =>
      have step := writeByte_preserves cp c h
      have tail := ih (cp.writeByte c).1 (step.2.1 ▸ step.1)
      refine ⟨tail.1, step.2.1 ▸ tail.2.1, fun k => ?_⟩
      have hk := tail.2.2 k
      rw [step.2.1] at hk
      rw [ChunkPrint.run, List.foldl_cons]
      exact hk.trans (step.2.2 k)
    | buf bs =>
      have step := writeBuf_preserves cp bs h
      have tail := ih (cp.writeBuf bs).1 (step.2.1 ▸ step.1)
      refine ⟨tail.1, step.2.1 ▸ tail.2.1, fun k => ?_⟩
      have hk := tail.2.2 k
      rw [step.2.1] at hk
      rw [ChunkPrint.run, List.foldl_cons]
      exact hk.trans (step.2.2 k)

/-- C1: a `ChunkPrint` cursor constructed with destination limit `m`
never advances `_pos` past `m` under any sequence of `write` calls, and no
byte at or past address `m` in the destination is ever modified. -/
theorem chunkPrint_never_exceeds_limit (d : Nat → Nat) (start len m : Nat)
    (ops : List WriteOp) :
    ((ChunkPrint.init d start len m).run ops).pos ≤ m ∧
    ∀ k, ((ChunkPrint.init d start len m).run ops).destination (m + k) = d (m + k) := by
  have h := run_preserves ops (ChunkPrint.init d start len m) (Nat.zero_le m)
  refine ⟨?_, h.2.2⟩
  have h1 := h.1
  have h2 : ((ChunkPrint.init d start len m).run ops).max_size = m := h.2.1
  omega

/-- C5 counterexample: with `to_skip = 3` and ample capacity, a 10-byte
`write(buffer, size)` call skips 3 bytes and copies 7, consuming all 10
presented bytes, yet returns 7 — not the consumed count `3 + 7 = 10`
claimed by the spec. -/
theorem chunkPrint_return_counterexample :
    ((ChunkPrint.init (fun _ => 0) 3 100 100).writeBuf
        [1, 2, 3, 4, 5, 6, 7, 8, 9, 10]).2 = 7 ∧
    (ChunkPrint.init (fun _ => 0) 3 100 100).to_skip -
      ((ChunkPrint.init (fun _ => 0) 3 100 100).writeBuf
        [1, 2, 3, 4, 5, 6, 7, 8, 9, 10]).1.to_skip = 3 ∧
    ((ChunkPrint.init (fun _ => 0) 3 100 100).writeBuf
        [1, 2, 3, 4, 5, 6, 7, 8, 9, 10]).1.pos -
      (ChunkPrint.init (fun _ => 0) 3 100 100).pos = 7 ∧
    (7 : Nat) ≠ 3 + 7 := by
  refine ⟨?_, ?_, ?_, by decide⟩ <;> rfl

/-- C5 amended: `write(uint8_t)` does return the bytes it consumed in the
call (skipped plus copied, i.e. 0 or 1); but `write(buffer, size)` returns
the whole size when the skip phase swallows the call and otherwise
`size - skipped`, irrespective of how many of those bytes were actually
copied — so for multi-byte writes the return value is not skipped+copied. -/
theorem chunkPrint_write_return_values (cp : ChunkPrint) (c : Nat) (bs : List Nat) :
    (cp.writeByte c).2 =
      (cp.to_skip - (cp.writeByte c).1.to_skip) + ((cp.writeByte c).1.pos - cp.pos) ∧
    (cp.writeBuf bs).2 = if bs.length ≤ cp.to_skip then bs.length
      else bs.length - cp.to_skip := by
  constructor
  · unfold ChunkPrint.writeByte
    split
    · next h => dsimp only; omega
    · split
      · next h h2 => dsimp only; omega
      · next h h2 => dsimp only; omega
  · unfold ChunkPrint.writeBuf
    dsimp only
    split
    · next h =>
      dsimp only
      rw [if_pos (by omega)]
      omega
    · next h =>
      split
      · next h2 =>
        simp only [List.length_drop] at h2
        dsimp only
        rw [if_pos (by omega)]
        omega
      · next h2 =>
        simp only [List.length_drop] at h2
        split
        · dsimp only
          rw [List.length_drop, if_neg (by omega)]
          omega
        · dsimp only
          rw [List.length_drop, if_neg (by omega)]
          omega

/-- C10: whenever `allocateBuffer(size)` returns `true` the buffer is
non-null with recorded capacity at least `size`; and when a buffer with
capacity ≥ `size` already exists (and `0 < size ≤ maxContentLength`), it is
reused unmodified — `_tempObjectSize` keeps its previous, possibly larger,
value, only `_bufferReady` is set. -/
theorem allocateBuffer_postcondition (s : HandlerState) (size : Nat)
    (m : Option (Nat → Nat)) :
    ((s.allocateBuffer size m).2 = true →
      (s.allocateBuffer size m).1.tempObject.isSome ∧
      size ≤ (s.allocateBuffer size m).1.tempObjectSize) ∧
    (∀ buf, s.tempObject = some buf → size ≤ s.tempObjectSize → 0 < size →
      size ≤ s.maxContentLength →
      s.allocateBuffer size m = ({ s with bufferReady := true }, true)) := by
  constructor
  · intro htrue
    unfold HandlerState.allocateBuffer at htrue ⊢
    by_cases h1 : size = 0 ∨ s.maxContentLength < size
    · rw [if_pos h1] at htrue
      simp at htrue
    · rw [if_neg h1] at htrue ⊢
      by_cases h2 : s.tempObject.isNone = true ∨ s.tempObjectSize < size
      · rw [if_pos h2] at htrue ⊢
        match m with
        | none => simp at htrue
        | some fresh => simp
      · rw [if_neg h2] at htrue ⊢
        simp only [not_or, not_lt] at h2
        refine ⟨?_, h2.2⟩
        rcases hno : s.tempObject with _ | b
        · exact absurd (by simp [hno]) h2.1
        · simp [hno]
  · intro buf hbuf hsz h0 hmax
    unfold HandlerState.allocateBuffer
    rw [if_neg (by omega), if_neg (by simp [hbuf]; omega)]

/-- C3 counterexample: a fresh handler (no allocation, capacity 0) given a
1-byte fragment at offset 5 with declared total 3 drops the out-of-bounds
fragment, but the call is not state-preserving beyond `_contentLength`: it
first allocates, so `_tempObjectSize` becomes 3 and `_bufferReady` becomes
`true`, contradicting the claim that all state other than `_contentLength`
is left as it was. -/
theorem handleBody_oob_counterexample :
    (((HandlerState.initial 10).handleBody [5] 5 3 (some (fun _ => 0))).tempObjectSize = 3 ∧
      (HandlerState.initial 10).tempObjectSize = 0) ∧
    (((HandlerState.initial 10).handleBody [5] 5 3 (some (fun _ => 0))).bufferReady = true ∧
      (HandlerState.initial 10).bufferReady = false) ∧
    (HandlerState.initial 10).tempObjectSize < 5 + 1 := by
  refine ⟨⟨?_, rfl⟩, ⟨?_, rfl⟩, by decide⟩ <;> rfl

/-- C3 amended: when the accumulator already holds an allocation and a
non-empty fragment's `index + len` exceeds `_tempObjectSize`, the fragment
is silently discarded: no byte of the allocation is modified and the whole
state is unchanged except `_contentLength := total`.  (When no allocation
exists yet, `handleBody` may first allocate — changing `_tempObjectSize`
and `_bufferReady` — and a zero-length fragment returns without even
updating `_contentLength`.) -/
theorem handleBody_oob_discard (s : HandlerState) (buf : Nat → Nat)
    (data : List Nat) (index total : Nat) (m : Option (Nat → Nat))
    (hbuf : s.tempObject = some buf) (hne : data ≠ [])
    (hoob : s.tempObjectSize < index + data.length) :
    s.handleBody data index total m = { s with contentLength := total } := by
  unfold HandlerState.handleBody
  rw [if_neg (by simp [hne])]
  dsimp only
  split
  · rfl
  · rw [if_neg (by simp [hbuf])]
    unfold HandlerState.bodyCopy
    dsimp only
    rw [hbuf]
    dsimp only
    rw [if_neg (by omega)]

/-- Witness for `handleBody_oob_discard`. -/
theorem handleBody_oob_discard_witness :
    (⟨10, 0, some (fun _ => 9), 4, true⟩ : HandlerState).handleBody [1, 2] 3 4 none =
      (⟨10, 4, some (fun _ => 9), 4, true⟩ : HandlerState) :=
  handleBody_oob_discard _ (fun _ => 9) [1, 2] 3 4 none rfl (by decide) (by decide)

/-- Witness for `allocateBuffer_postcondition`: requesting 5 bytes from a
handler that already owns 10 reuses the block and keeps capacity 10. -/
theorem allocateBuffer_postcondition_witness :
    ((reuseState.allocateBuffer 5 none).2 = true →
      (reuseState.allocateBuffer 5 none).1.tempObject.isSome ∧
      5 ≤ (reuseState.allocateBuffer 5 none).1.tempObjectSize) ∧
    (∀ buf, reuseState.tempObject = some buf → 5 ≤ reuseState.tempObjectSize → 0 < 5 →
      5 ≤ reuseState.maxContentLength →
      reuseState.allocateBuffer 5 none = ({ reuseState with bufferReady := true }, true)) :=
  allocateBuffer_postcondition reuseState 5 none

theorem handleBody_allocated (s : HandlerState) (buf : Nat → Nat)
    (f : Nat × List Nat) (T : Nat) (m : Option (Nat → Nat))
    (hbuf : s.tempObject = some buf) (hsz : s.tempObjectSize = T)
    (hT : T ≤ s.maxContentLength) :
    s.handleBody f.2 f.1 T m =
      if f.2.length = 0 then s
      else { s with contentLength := T, tempObject := some (applyFrag T buf f) } := by
  obtain ⟨M, cl, tob, sz, br⟩ := s
  dsimp only at hbuf hsz hT ⊢
  subst hbuf
  subst hsz
  have happ : applyFrag sz buf f =
      if f.1 + f.2.length ≤ sz then memcpyAt buf f.1 f.2 else buf := by
    unfold applyFrag
    by_cases hd : f.2.length = 0
    · rw [if_pos hd]
      by_cases hb : f.1 + f.2.length ≤ sz
      · rw [if_pos hb]
        funext p
        simp only [memcpyAt]
        rw [if_neg (by omega)]
      · rw [if_neg hb]
    · rw [if_neg hd]
  rw [happ]
  unfold HandlerState.handleBody HandlerState.bodyCopy
  by_cases hd : f.2.length = 0
  · rw [if_pos hd, if_pos hd]
  · rw [if_neg hd, if_neg hd]
    try dsimp only
    rw [if_neg (by omega), if_neg (by simp)]
    try dsimp only
    by_cases hin : f.1 + f.2.length ≤ sz
    · rw [if_pos hin, if_pos hin]
    · rw [if_neg hin, if_neg hin]

theorem feedBody_allocated (fresh : Nat → Nat) (T : Nat)
    (frags : List (Nat × List Nat)) :
    ∀ (s : HandlerState) (buf : Nat → Nat), s.tempObject = some buf →
      s.tempObjectSize = T → T ≤ s.maxContentLength →
      (feedBody s fresh T frags).tempObject = some (applyFrags T buf frags) ∧
      (feedBody s fresh T frags).tempObjectSize = T ∧
      (feedBody s fresh T frags).maxContentLength = s.maxContentLength ∧
      (feedBody s fresh T frags).bufferReady = s.bufferReady := by
  induction frags with
  | nil =>
    intro s buf h1 h2 h3
    exact ⟨by simpa [feedBody, applyFrags] using h1, h2, rfl, rfl⟩
  | cons f rest ih =>
    intro s buf h1 h2 h3
    have hstep := handleBody_allocated s buf f T (some fresh) h1 h2 h3
    have hfold : feedBody s fresh T (f :: rest) =
        feedBody (s.handleBody f.2 f.1 T (some fresh)) fresh T rest := rfl
    have happs : applyFrags T buf (f :: rest) =
        applyFrags T (applyFrag T buf f) rest := rfl
    rw [hfold, happs, hstep]
    by_cases hd : f.2.length = 0
    · rw [if_pos hd]
      have happ : applyFrag T buf f = buf := by unfold applyFrag; rw [if_pos hd]
      rw [happ]
      exact ih s buf h1 h2 h3
    · rw [if_neg hd]
      have := ih { s with contentLength := T, tempObject := some (applyFrag T buf f) }
        (applyFrag T buf f) rfl h2 h3
      exact this

theorem applyFrags_not_covered (T : Nat) (frags : List (Nat × List Nat)) :
    ∀ (buf : Nat → Nat) (p : Nat), (∀ f ∈ frags, ¬ inFrag f p) →
      applyFrags T buf frags p = buf p := by
  induction frags with
  | nil => intro buf p _; rfl
  | cons g rest ih =>
    intro buf p h
    have hg := h g (by simp)
    show applyFrags T (applyFrag T buf g) rest p = buf p
    rw [ih _ p (fun f hf => h f (by simp [hf]))]
    unfold applyFrag
    split
    · rfl
    · split
      · unfold memcpyAt
        rw [if_neg (by unfold inFrag at hg; exact hg)]
      · rfl

theorem applyFrags_covered (T : Nat) (frags : List (Nat × List Nat)) :
    ∀ (buf : Nat → Nat) (f : Nat × List Nat) (p : Nat),
      f ∈ frags → inFrag f p → frags.Pairwise FragDisjoint →
      (∀ g ∈ frags, g.2.length ≠ 0 → g.1 + g.2.length ≤ T) →
      applyFrags T buf frags p = f.2.getD (p - f.1) 0 := by
  induction frags with
  | nil => intro buf f p hmem; exact absurd hmem (List.not_mem_nil f)
  | cons g rest ih =>
    intro buf f p hmem hin hdisj hbound
    rw [List.pairwise_cons] at hdisj
    rcases List.mem_cons.mp hmem with rfl | hf
    · have hlen : ¬ f.2.length = 0 := by unfold inFrag at hin; omega
      have hbnd := hbound f (by simp) hlen
      show applyFrags T (applyFrag T buf f) rest p = f.2.getD (p - f.1) 0
      have hnone : ∀ h ∈ rest, ¬ inFrag h p := by
        intro h hh hinh
        have hd := hdisj.1 h hh
        unfold FragDisjoint at hd
        unfold inFrag at hin hinh
        omega
      rw [applyFrags_not_covered T rest _ p hnone]
      unfold applyFrag
      rw [if_neg hlen, if_pos hbnd]
      unfold memcpyAt
      rw [if_pos (by unfold inFrag at hin; exact hin)]
    · show applyFrags T (applyFrag T buf g) rest p = f.2.getD (p - f.1) 0
      exact ih _ f p hf hin hdisj.2 (fun h hh => hbound h (by simp [hh]))

theorem handleBody_fresh (s : HandlerState) (fresh : Nat → Nat)
    (f : Nat × List Nat) (T : Nat)
    (hnone : s.tempObject = none) (hne : ¬ f.2.length = 0) (hT0 : 0 < T)
    (hTM : T ≤ s.maxContentLength) :
    s.handleBody f.2 f.1 T (some fresh) =
      { s with contentLength := T, tempObject := some (applyFrag T fresh f),
               tempObjectSize := T, bufferReady := true } := by
  obtain ⟨M, cl, tob, sz, br⟩ := s
  dsimp only at hnone hTM ⊢
  subst hnone
  have happ : applyFrag T fresh f =
      if f.1 + f.2.length ≤ T then memcpyAt fresh f.1 f.2 else fresh := by
    unfold applyFrag
    rw [if_neg hne]
  rw [happ]
  by_cases hin : f.1 + f.2.length ≤ T
  · simp [HandlerState.handleBody, HandlerState.allocateBuffer, HandlerState.bodyCopy,
      hne, hin, show ¬ M < T by omega, show ¬ T = 0 by omega]
  · simp [HandlerState.handleBody, HandlerState.allocateBuffer, HandlerState.bodyCopy,
      hne, hin, show ¬ M < T by omega, show ¬ T = 0 by omega]

theorem feedBody_fresh (M T : Nat) (fresh : Nat → Nat)
    (frags : List (Nat × List Nat)) :
    ∀ (s : HandlerState), s.tempObject = none → s.maxContentLength = M →
      0 < T → T ≤ M → (∃ f ∈ frags, ¬ f.2.length = 0) →
      (feedBody s fresh T frags).tempObject = some (applyFrags T fresh frags) ∧
      (feedBody s fresh T frags).tempObjectSize = T := by
  induction frags with
  | nil =>
    intro s _ _ _ _ hne
    simp at hne
  | cons f rest ih =>
    intro s hnone hM hT0 hTM hne
    have hfold : feedBody s fresh T (f :: rest) =
        feedBody (s.handleBody f.2 f.1 T (some fresh)) fresh T rest := rfl
    have happs : applyFrags T fresh (f :: rest) =
        applyFrags T (applyFrag T fresh f) rest := rfl
    by_cases hf : f.2.length = 0
    · have hstep : s.handleBody f.2 f.1 T (some fresh) = s := by
        unfold HandlerState.handleBody
        rw [if_pos hf]
      have hrest : ∃ g ∈ rest, ¬ g.2.length = 0 := by
        rcases hne with ⟨g, hg, hglen⟩
        rcases List.mem_cons.mp hg with rfl | hgr
        · exact absurd hf hglen
        · exact ⟨g, hgr, hglen⟩
      have happ : applyFrag T fresh f = fresh := by unfold applyFrag; rw [if_pos hf]
      rw [hfold, happs, hstep, happ]
      exact ih s hnone hM hT0 hTM hrest
    · have hstep := handleBody_fresh s fresh f T hnone hf hT0 (hM ▸ hTM)
      rw [hfold, happs, hstep]
      have := feedBody_allocated fresh T rest
        { s with contentLength := T, tempObject := some (applyFrag T fresh f),
                 tempObjectSize := T, bufferReady := true }
        (applyFrag T fresh f) rfl rfl (by dsimp only; omega)
      exact ⟨this.1, this.2.1⟩

/-- C2: for any declared total `0 < T ≤ maxContentLength` and any list of
fragments with pairwise disjoint intervals covering exactly `[0, T)`,
delivered in any order, the accumulator after the last fragment holds a
buffer of capacity `T` whose byte at every position covered by a fragment
is that fragment's byte at the matching offset — i.e. the first `T` bytes
are the concatenation of the payloads mapped to their declared offsets. -/
theorem handleBody_assembles_fragments (M T : Nat) (fresh : Nat → Nat)
    (frags : List (Nat × List Nat))
    (hT0 : 0 < T) (hTM : T ≤ M)
    (hdisj : frags.Pairwise FragDisjoint)
    (hcover : ∀ p, p < T ↔ ∃ f ∈ frags, inFrag f p) :
    ∃ buf, (feedBody (HandlerState.initial M) fresh T frags).tempObject = some buf ∧
      (feedBody (HandlerState.initial M) fresh T frags).tempObjectSize = T ∧
      ∀ f ∈ frags, ∀ p, inFrag f p → buf p = f.2.getD (p - f.1) 0 := by
  have hbound : ∀ g ∈ frags, g.2.length ≠ 0 → g.1 + g.2.length ≤ T := by
    intro g hg hlen
    have hcov : g.1 + g.2.length - 1 < T := (hcover (g.1 + g.2.length - 1)).mpr
      ⟨g, hg, by unfold inFrag; omega⟩
    omega
  have hne : ∃ f ∈ frags, ¬ f.2.length = 0 := by
    rcases (hcover 0).mp hT0 with ⟨f, hf, hin⟩
    exact ⟨f, hf, by unfold inFrag at hin; omega⟩
  have hmain := feedBody_fresh M T fresh frags (HandlerState.initial M) rfl rfl hT0 hTM hne
  refine ⟨applyFrags T fresh frags, hmain.1, hmain.2, ?_⟩
  intro f hf p hin
  exact applyFrags_covered T frags fresh f p hf hin hdisj hbound

/-- Witness for `handleBody_assembles_fragments`: total 2, fragments
`(1, [20])` then `(0, [10])` delivered out of order. -/
theorem handleBody_assembles_fragments_witness :
    ∃ buf, (feedBody (HandlerState.initial 4) (fun _ => 7) 2
        [(1, [20]), (0, [10])]).tempObject = some buf ∧
      (feedBody (HandlerState.initial 4) (fun _ => 7) 2
        [(1, [20]), (0, [10])]).tempObjectSize = 2 ∧
      ∀ f ∈ [((1 : Nat), [(20 : Nat)]), (0, [10])], ∀ p, inFrag f p →
        buf p = f.2.getD (p - f.1) 0 :=
  handleBody_assembles_fragments 4 2 (fun _ => 7) [(1, [20]), (0, [10])]
    (by decide) (by decide)
    (by
      constructor
      · intro g hg
        rcases List.mem_cons.mp hg with rfl | hg2
        · unfold FragDisjoint
          right
          decide
        · simp at hg2
      · constructor
        · intro g hg
          simp at hg
        · exact List.Pairwise.nil)
    (by
      intro p
      constructor
      · intro hp
        match p, hp with
        | 0, _ => exact ⟨(0, [10]), by simp, by simp [inFrag]⟩
        | 1, _ => exact ⟨(1, [20]), by simp, by simp [inFrag]⟩
      · intro ⟨f, hf, hin⟩
        rcases List.mem_cons.mp hf with rfl | hf2
        · simp [inFrag] at hin
          omega
        · simp at hf2
          subst hf2
          simp [inFrag] at hin
          omega)

theorem handleRequest_tooLarge (s : HandlerState) (p : Bool)
    (h : s.maxContentLength < s.contentLength) :
    s.handleRequest true p = (.tooLarge, s, false) := by
  unfold HandlerState.handleRequest
  rw [if_neg (show ¬ (true = false) by simp), if_pos h]

theorem handleRequest_delivers (s : HandlerState) (p : Bool)
    (h1 : s.contentLength ≤ s.maxContentLength) (h2 : s.bufferReady = true)
    (h3 : s.tempObject.isNone = false) (h4 : ¬ s.contentLength = 0) :
    s.handleRequest true p =
      (if p then (.served, s.cleanup, true) else (.invalidJson, s.cleanup, false)) := by
  unfold HandlerState.handleRequest
  rw [if_neg (show ¬ (true = false) by simp)]
  rw [if_neg (by omega)]
  rw [if_neg (by simp [h2, h3, h4])]
  cases p
  · rw [if_pos rfl, if_neg (by simp)]
  · rw [if_neg (by simp), if_pos rfl]

theorem handleBody_oversize (s : HandlerState) (data : List Nat) (i T : Nat)
    (m : Option (Nat → Nat)) (h : s.maxContentLength < T) :
    s.handleBody data i T m =
      if data.length = 0 then s else { s with contentLength := T } := by
  unfold HandlerState.handleBody
  by_cases hd : data.length = 0
  · rw [if_pos hd, if_pos hd]
  · rw [if_neg hd, if_neg hd]
    try dsimp only
    rw [if_pos h]

theorem feedBody_oversize (T : Nat) (fresh : Nat → Nat)
    (frags : List (Nat × List Nat)) :
    ∀ s : HandlerState, s.maxContentLength < T →
      (feedBody s fresh T frags).tempObject = s.tempObject ∧
      (feedBody s fresh T frags).tempObjectSize = s.tempObjectSize ∧
      (feedBody s fresh T frags).maxContentLength = s.maxContentLength ∧
      (feedBody s fresh T frags).bufferReady = s.bufferReady ∧
      ((∃ f ∈ frags, ¬ f.2.length = 0) → (feedBody s fresh T frags).contentLength = T) ∧
      ((∀ f ∈ frags, f.2.length = 0) →
        (feedBody s fresh T frags).contentLength = s.contentLength) := by
  induction frags with
  | nil =>
    intro s h
    refine ⟨rfl, rfl, rfl, rfl, ?_, fun _ => rfl⟩
    intro hne
    simp at hne
  | cons f rest ih =>
    intro s h
    have hstep := handleBody_oversize s f.2 f.1 T (some fresh) h
    have hfold : feedBody s fresh T (f :: rest) =
        feedBody (s.handleBody f.2 f.1 T (some fresh)) fresh T rest := rfl
    rw [hfold, hstep]
    by_cases hd : f.2.length = 0
    · rw [if_pos hd]
      have hr := ih s h
      refine ⟨hr.1, hr.2.1, hr.2.2.1, hr.2.2.2.1, ?_, ?_⟩
      · intro ⟨g, hg, hglen⟩
        rcases List.mem_cons.mp hg with rfl | hgr
        · exact absurd hd hglen
        · exact hr.2.2.2.2.1 ⟨g, hgr, hglen⟩
      · intro hall
        exact hr.2.2.2.2.2 (fun g hg => hall g (by simp [hg]))
    · rw [if_neg hd]
      have hr := ih { s with contentLength := T } (by dsimp only; exact h)
      refine ⟨hr.1, hr.2.1, hr.2.2.1, hr.2.2.2.1, ?_, ?_⟩
      · intro _
        by_cases hrest : ∃ g ∈ rest, ¬ g.2.length = 0
        · exact hr.2.2.2.2.1 hrest
        · push_neg at hrest
          have h2 := hr.2.2.2.2.2 (fun g hg => hrest g hg)
          rw [h2]
      · intro hall
        exact absurd (hall f (by simp)) hd

/-- C7: for a declared total `T` exceeding the configured maximum, no
buffer allocation ever occurs — after any prefix of the fragment list the
buffer pointer is still null and the capacity 0 — and the subsequent
`handleRequest` yields the 413 `tooLarge` outcome without invoking the
user callback. -/
theorem oversized_total_never_allocates (M T : Nat) (fresh : Nat → Nat)
    (frags : List (Nat × List Nat)) (p : Bool)
    (hT : M < T) (hne : ∃ f ∈ frags, ¬ f.2.length = 0) :
    (∀ k, (feedBody (HandlerState.initial M) fresh T (frags.take k)).tempObject = none) ∧
    (feedBody (HandlerState.initial M) fresh T frags).tempObjectSize = 0 ∧
    ((feedBody (HandlerState.initial M) fresh T frags).handleRequest true p).1 = .tooLarge ∧
    ((feedBody (HandlerState.initial M) fresh T frags).handleRequest true p).1.status = 413 ∧
    ((feedBody (HandlerState.initial M) fresh T frags).handleRequest true p).2.2 = false := by
  have hg := feedBody_oversize T fresh frags (HandlerState.initial M) hT
  have hreq : (feedBody (HandlerState.initial M) fresh T frags).handleRequest true p =
      (.tooLarge, feedBody (HandlerState.initial M) fresh T frags, false) := by
    apply handleRequest_tooLarge
    rw [hg.2.2.1, hg.2.2.2.2.1 hne]
    exact hT
  refine ⟨?_, hg.2.1, ?_, ?_, ?_⟩
  · intro k
    exact (feedBody_oversize T fresh (frags.take k) (HandlerState.initial M) hT).1
  · rw [hreq]
  · rw [hreq]
    rfl
  · rw [hreq]

/-- Witness for `oversized_total_never_allocates`. -/
theorem oversized_total_never_allocates_witness :
    (∀ k, (feedBody (HandlerState.initial 5) (fun _ => 0) 10
      ([(0, [1, 2, 3])].take k)).tempObject = none) ∧
    (feedBody (HandlerState.initial 5) (fun _ => 0) 10 [(0, [1, 2, 3])]).tempObjectSize = 0 ∧
    ((feedBody (HandlerState.initial 5) (fun _ => 0) 10
      [(0, [1, 2, 3])]).handleRequest true true).1 = .tooLarge ∧
    ((feedBody (HandlerState.initial 5) (fun _ => 0) 10
      [(0, [1, 2, 3])]).handleRequest true true).1.status = 413 ∧
    ((feedBody (HandlerState.initial 5) (fun _ => 0) 10
      [(0, [1, 2, 3])]).handleRequest true true).2.2 = false :=
  oversized_total_never_allocates 5 10 (fun _ => 0) [(0, [1, 2, 3])] true
    (by decide) ⟨(0, [1, 2, 3]), by simp, by simp⟩

/-- C4 counterexample: a `handleRequest` call that answers 413 (oversized
`_contentLength` while a previous allocation is still owned) returns with
the accumulator NOT reset — `_tempObject` still owned, `_tempObjectSize`
still 5, `_bufferReady` still `true` — contradicting the claim that every
completed `handleRequest` leaves the clean initial accumulator state. -/
theorem handleRequest_reset_counterexample :
    ((⟨10, 20, some (fun _ => 0), 5, true⟩ : HandlerState).handleRequest true true).1
      = .tooLarge ∧
    ((⟨10, 20, some (fun _ => 0), 5, true⟩ : HandlerState).handleRequest true true).2.1.tempObjectSize
      = 5 ∧
    ((⟨10, 20, some (fun _ => 0), 5, true⟩ : HandlerState).handleRequest true true).2.1.bufferReady
      = true ∧
    ((⟨10, 20, some (fun _ => 0), 5, true⟩ : HandlerState).handleRequest true true).2.1.tempObject.isSome
      = true ∧
    ¬ (5 = 0 ∧ true = false) :=
  ⟨rfl, rfl, rfl, rfl, by simp⟩

theorem processNextChunk_ends_clean (C : Nat) :
    ∀ (n : Nat) (st : StreamState), st.base.tempObjectSize - st.processIndex ≤ n →
      ∃ y : StreamState, (st.processNextChunk C).2 = y.cleanup := by
  intro n
  induction n with
  | zero =>
    intro st hst
    unfold StreamState.processNextChunk
    split
    · exact ⟨st, rfl⟩
    · split
      · exact ⟨st, rfl⟩
      · split
        · exact ⟨st, rfl⟩
        · next h1 =>
          exact absurd (show st.base.tempObjectSize ≤ st.processIndex by omega) h1
  | succ n ih =>
    intro st hst
    unfold StreamState.processNextChunk
    split
    · exact ⟨st, rfl⟩
    · split
      · exact ⟨st, rfl⟩
      · split
        · exact ⟨st, rfl⟩
        · next h1 =>
          dsimp only
          split
          · exact ⟨st, rfl⟩
          · next h2 =>
            try dsimp only
            split
            · next hlt =>
              exact ih ⟨st.base, st.hasCurrentRequest,
                st.processIndex + min C (st.base.tempObjectSize - st.processIndex)⟩
                (by dsimp only; omega)
            · exact ⟨_, rfl⟩

theorem processNextChunk_cleans (C : Nat) (st : StreamState) :
    (st.processNextChunk C).2.base.tempObject = none ∧
    (st.processNextChunk C).2.base.tempObjectSize = 0 ∧
    (st.processNextChunk C).2.base.bufferReady = false ∧
    (st.processNextChunk C).2.hasCurrentRequest = false ∧
    (st.processNextChunk C).2.processIndex = 0 := by
  obtain ⟨y, hy⟩ := processNextChunk_ends_clean C
    (st.base.tempObjectSize - st.processIndex) st (le_refl _)
  rw [hy]
  exact ⟨rfl, rfl, rfl, rfl, rfl⟩

theorem chunkLens_pos (C S idx : Nat) (h : idx < S ∧ 0 < C) :
    chunkLens C S idx = min C (S - idx) :: chunkLens C S (idx + min C (S - idx)) := by
  conv_lhs => unfold chunkLens
  rw [dif_pos h]

theorem chunkLens_neg (C S idx : Nat) (h : ¬ (idx < S ∧ 0 < C)) :
    chunkLens C S idx = [] := by
  conv_lhs => unfold chunkLens
  rw [dif_neg h]

theorem chunkSlices_pos (C S idx : Nat) (buf : Nat → Nat) (h : idx < S ∧ 0 < C) :
    chunkSlices C S idx buf = (idx, segment buf idx (min C (S - idx))) ::
      chunkSlices C S (idx + min C (S - idx)) buf := by
  conv_lhs => unfold chunkSlices
  rw [dif_pos h]

theorem chunkSlices_neg (C S idx : Nat) (buf : Nat → Nat) (h : ¬ (idx < S ∧ 0 < C)) :
    chunkSlices C S idx buf = [] := by
  conv_lhs => unfold chunkSlices
  rw [dif_neg h]

theorem chunkSlices_map_length (C : Nat) :
    ∀ (n S idx : Nat) (buf : Nat → Nat), S - idx ≤ n →
      (chunkSlices C S idx buf).map (fun x => x.2.length) = chunkLens C S idx := by
  intro n
  induction n with
  | zero =>
    intro S idx buf h
    rw [chunkSlices_neg C S idx buf (by omega), chunkLens_neg C S idx (by omega)]
    rfl
  | succ n ih =>
    intro S idx buf h
    by_cases hg : idx < S ∧ 0 < C
    · rw [chunkSlices_pos C S idx buf hg, chunkLens_pos C S idx hg, List.map_cons]
      rw [ih S (idx + min C (S - idx)) buf (by omega)]
      simp
    · rw [chunkSlices_neg C S idx buf hg, chunkLens_neg C S idx hg]
      rfl

theorem chunkLens_sum (C : Nat) :
    ∀ (n S idx : Nat), S - idx ≤ n → idx ≤ S → 0 < C →
      (chunkLens C S idx).sum = S - idx := by
  intro n
  induction n with
  | zero =>
    intro S idx h hle hC
    rw [chunkLens_neg C S idx (by omega)]
    simp
    omega
  | succ n ih =>
    intro S idx h hle hC
    by_cases hg : idx < S
    · rw [chunkLens_pos C S idx ⟨hg, hC⟩, List.sum_cons]
      rw [ih S (idx + min C (S - idx)) (by omega) (by omega) hC]
      omega
    · rw [chunkLens_neg C S idx (by omega)]
      simp
      omega

theorem chunkSlices_consecutive (C : Nat) :
    ∀ (n S idx : Nat) (buf : Nat → Nat), S - idx ≤ n →
      consecutiveFrom idx (chunkSlices C S idx buf) := by
  intro n
  induction n with
  | zero =>
    intro S idx buf h
    rw [chunkSlices_neg C S idx buf (by omega)]
    trivial
  | succ n ih =>
    intro S idx buf h
    by_cases hg : idx < S ∧ 0 < C
    · rw [chunkSlices_pos C S idx buf hg]
      refine ⟨rfl, ?_⟩
      try dsimp only
      rw [segment_length]
      exact ih S (idx + min C (S - idx)) buf (by omega)
    · rw [chunkSlices_neg C S idx buf hg]
      trivial

theorem chunkSlices_mem (C : Nat) :
    ∀ (n S idx : Nat) (buf : Nat → Nat) (x : Nat × List Nat), S - idx ≤ n →
      x ∈ chunkSlices C S idx buf →
      x.2 = segment buf x.1 (min C (S - x.1)) := by
  intro n
  induction n with
  | zero =>
    intro S idx buf x h hx
    rw [chunkSlices_neg C S idx buf (by omega)] at hx
    simp at hx
  | succ n ih =>
    intro S idx buf x h hx
    by_cases hg : idx < S ∧ 0 < C
    · rw [chunkSlices_pos C S idx buf hg] at hx
      rcases List.mem_cons.mp hx with rfl | hx2
      · rfl
      · exact ih S (idx + min C (S - idx)) buf x (by omega) hx2
    · rw [chunkSlices_neg C S idx buf hg] at hx
      simp at hx

theorem processNextChunk_slices (C : Nat) :
    ∀ (n : Nat) (st : StreamState) (buf : Nat → Nat),
      st.base.tempObjectSize - st.processIndex ≤ n →
      st.base.tempObject = some buf → st.hasCurrentRequest = true →
      (st.processNextChunk C).1 =
        chunkSlices C st.base.tempObjectSize st.processIndex buf := by
  intro n
  induction n with
  | zero =>
    intro st buf h hbuf hreq
    unfold StreamState.processNextChunk
    rw [hbuf]
    dsimp only
    rw [if_neg (by simp [hreq])]
    rw [dif_pos (show st.base.tempObjectSize ≤ st.processIndex by omega)]
    rw [chunkSlices_neg C _ _ buf (by omega)]
  | succ n ih =>
    intro st buf h hbuf hreq
    unfold StreamState.processNextChunk
    rw [hbuf]
    dsimp only
    rw [if_neg (by simp [hreq])]
    by_cases h1 : st.base.tempObjectSize ≤ st.processIndex
    · rw [dif_pos h1, chunkSlices_neg C _ _ buf (by omega)]
    · rw [dif_neg h1]
      try dsimp only
      by_cases h2 : min C (st.base.tempObjectSize - st.processIndex) = 0
      · rw [dif_pos h2, chunkSlices_neg C _ _ buf (by omega)]
      · rw [dif_neg h2]
        try dsimp only
        rw [chunkSlices_pos C st.base.tempObjectSize st.processIndex buf (by omega)]
        by_cases h3 : st.processIndex + min C (st.base.tempObjectSize - st.processIndex) <
            st.base.tempObjectSize
        · rw [if_pos h3]
          try dsimp only
          rw [ih ⟨st.base, st.hasCurrentRequest,
            st.processIndex + min C (st.base.tempObjectSize - st.processIndex)⟩ buf
            (by dsimp only; omega) hbuf hreq]
        · rw [if_neg h3]
          rw [chunkSlices_neg C _ _ buf (by omega)]

theorem streamHandleRequest_served (C : Nat) (st : StreamState) (buf : Nat → Nat)
    (h1 : st.base.contentLength ≤ st.base.maxContentLength)
    (h2 : st.base.bufferReady = true)
    (hbuf : st.base.tempObject = some buf)
    (h4 : ¬ st.base.tempObjectSize = 0) :
    StreamState.handleRequest C st true =
      (.served, ((StreamState.mk st.base true 0).processNextChunk C).1,
        ((StreamState.mk st.base true 0).processNextChunk C).2) := by
  unfold StreamState.handleRequest
  rw [if_neg (show ¬ (true = false) by simp)]
  rw [if_neg (by omega)]
  rw [if_neg (by simp [h2, hbuf, h4])]

theorem chunkLens_scenarioE : chunkLens 768 2000 0 = [768, 768, 464] := by
  have e1 : chunkLens 768 2000 0 = 768 :: chunkLens 768 2000 768 := by
    rw [chunkLens_pos 768 2000 0 (by omega)]
    norm_num [Nat.min_def]
  have e2 : chunkLens 768 2000 768 = 768 :: chunkLens 768 2000 1536 := by
    rw [chunkLens_pos 768 2000 768 (by omega)]
    norm_num [Nat.min_def]
  have e3 : chunkLens 768 2000 1536 = 464 :: chunkLens 768 2000 2000 := by
    rw [chunkLens_pos 768 2000 1536 (by omega)]
    norm_num [Nat.min_def]
  have e4 : chunkLens 768 2000 2000 = [] := chunkLens_neg 768 2000 2000 (by omega)
  rw [e1, e2, e3, e4]

/-- C6 amended: streamed dispatch walks the ALLOCATION, `_tempObjectSize`:
for any chunk size `C > 0` the user callback receives consecutive slices
in ascending, non-overlapping offset order, each slice being the buffer
segment of length `min C (capacity - offset)`, with lengths summing to
the capacity — which equals the declared size `N` exactly when the
allocation was created fresh for this payload (a retained larger
allocation makes the walk longer than `N`).  For capacity 2000 and
`C = 768` the slice lengths are `[768, 768, 464]` (three invocations),
and after the last chunk the session is cleaned up with the accumulator
released. -/
theorem stream_dispatch_slices (C S : Nat) (buf : Nat → Nat) (st : StreamState)
    (hC : 0 < C) (hbuf : st.base.tempObject = some buf)
    (hS : st.base.tempObjectSize = S) (hS0 : ¬ S = 0)
    (hcl : st.base.contentLength ≤ st.base.maxContentLength)
    (hready : st.base.bufferReady = true) :
    (StreamState.handleRequest C st true).1 = .served ∧
    (StreamState.handleRequest C st true).2.1 = chunkSlices C S 0 buf ∧
    consecutiveFrom 0 ((StreamState.handleRequest C st true).2.1) ∧
    (((StreamState.handleRequest C st true).2.1).map (fun x => x.2.length)).sum = S ∧
    (∀ x ∈ (StreamState.handleRequest C st true).2.1,
      x.2 = segment buf x.1 (min C (S - x.1))) ∧
    (StreamState.handleRequest C st true).2.2.base.tempObject = none ∧
    (StreamState.handleRequest C st true).2.2.base.tempObjectSize = 0 ∧
    (StreamState.handleRequest C st true).2.2.base.bufferReady = false ∧
    chunkLens 768 2000 0 = [768, 768, 464] := by
  have hserved := streamHandleRequest_served C st buf hcl hready hbuf (by omega)
  have hslices : ((StreamState.mk st.base true 0).processNextChunk C).1 =
      chunkSlices C S 0 buf := by
    have hs := processNextChunk_slices C S (StreamState.mk st.base true 0) buf
      (by dsimp only; omega) hbuf rfl
    rw [show (StreamState.mk st.base true 0).base.tempObjectSize = S from hS] at hs
    exact hs
  have hclean := processNextChunk_cleans C (StreamState.mk st.base true 0)
  rw [hserved]
  refine ⟨rfl, hslices, ?_, ?_, ?_, hclean.1, hclean.2.1, hclean.2.2.1,
    chunkLens_scenarioE⟩
  · rw [show ((Outcome.served, ((StreamState.mk st.base true 0).processNextChunk C).1,
      ((StreamState.mk st.base true 0).processNextChunk C).2)).2.1 =
      ((StreamState.mk st.base true 0).processNextChunk C).1 from rfl, hslices]
    exact chunkSlices_consecutive C S S 0 buf (by omega)
  · rw [show ((Outcome.served, ((StreamState.mk st.base true 0).processNextChunk C).1,
      ((StreamState.mk st.base true 0).processNextChunk C).2)).2.1 =
      ((StreamState.mk st.base true 0).processNextChunk C).1 from rfl, hslices]
    rw [chunkSlices_map_length C S S 0 buf (by omega)]
    rw [chunkLens_sum C S S 0 (by omega) (by omega) hC]
    omega
  · intro x hx
    rw [show ((Outcome.served, ((StreamState.mk st.base true 0).processNextChunk C).1,
      ((StreamState.mk st.base true 0).processNextChunk C).2)).2.1 =
      ((StreamState.mk st.base true 0).processNextChunk C).1 from rfl, hslices] at hx
    exact chunkSlices_mem C S S 0 buf x (by omega) hx

/-- Witness for `stream_dispatch_slices`. -/
theorem stream_dispatch_slices_witness :
    (StreamState.handleRequest 3 ⟨⟨10, 2, some (fun _ => 5), 2, true⟩, false, 0⟩ true).1
      = .served ∧
    (StreamState.handleRequest 3 ⟨⟨10, 2, some (fun _ => 5), 2, true⟩, false, 0⟩ true).2.1
      = chunkSlices 3 2 0 (fun _ => 5) ∧
    consecutiveFrom 0 ((StreamState.handleRequest 3
      ⟨⟨10, 2, some (fun _ => 5), 2, true⟩, false, 0⟩ true).2.1) ∧
    (((StreamState.handleRequest 3 ⟨⟨10, 2, some (fun _ => 5), 2, true⟩, false, 0⟩
      true).2.1).map (fun x => x.2.length)).sum = 2 ∧
    (∀ x ∈ (StreamState.handleRequest 3
        ⟨⟨10, 2, some (fun _ => 5), 2, true⟩, false, 0⟩ true).2.1,
      x.2 = segment (fun _ => 5) x.1 (min 3 (2 - x.1))) ∧
    (StreamState.handleRequest 3 ⟨⟨10, 2, some (fun _ => 5), 2, true⟩, false, 0⟩
      true).2.2.base.tempObject = none ∧
    (StreamState.handleRequest 3 ⟨⟨10, 2, some (fun _ => 5), 2, true⟩, false, 0⟩
      true).2.2.base.tempObjectSize = 0 ∧
    (StreamState.handleRequest 3 ⟨⟨10, 2, some (fun _ => 5), 2, true⟩, false, 0⟩
      true).2.2.base.bufferReady = false ∧
    chunkLens 768 2000 0 = [768, 768, 464] :=
  stream_dispatch_slices 3 2 (fun _ => 5) ⟨⟨10, 2, some (fun _ => 5), 2, true⟩, false, 0⟩
    (by decide) rfl rfl (by decide) (by decide) rfl

/-- C6 counterexample: a ready session whose declared size is
`_contentLength = 100` but whose retained allocation capacity is
`_tempObjectSize = 200` streams slices whose lengths sum to 200 — the
capacity — not to the declared size `N = 100`, refuting the claim that the
slice lengths always sum to the declared payload size. -/
theorem stream_dispatch_counterexample :
    ((StreamState.handleRequest 512
        ⟨⟨16384, 100, some (fun _ => 1), 200, true⟩, false, 0⟩ true).2.1.map
      (fun x => x.2.length)).sum = 200 ∧
    (⟨⟨16384, 100, some (fun _ => 1), 200, true⟩, false, 0⟩ : StreamState).base.contentLength
      = 100 ∧
    (StreamState.handleRequest 512
        ⟨⟨16384, 100, some (fun _ => 1), 200, true⟩, false, 0⟩ true).1 = .served ∧
    (200 : Nat) ≠ 100 := by
  have hserved := streamHandleRequest_served 512
    ⟨⟨16384, 100, some (fun _ => 1), 200, true⟩, false, 0⟩ (fun _ => 1)
    (by decide) rfl rfl (by decide)
  have hslices := processNextChunk_slices 512 200
    (StreamState.mk ⟨16384, 100, some (fun _ => 1), 200, true⟩ true 0) (fun _ => 1)
    (by decide) rfl rfl
  rw [hserved]
  refine ⟨?_, rfl, rfl, by decide⟩
  rw [show ((Outcome.served,
      ((StreamState.mk (⟨16384, 100, some (fun _ => 1), 200, true⟩ : HandlerState)
        true 0).processNextChunk 512).1,
      ((StreamState.mk (⟨16384, 100, some (fun _ => 1), 200, true⟩ : HandlerState)
        true 0).processNextChunk 512).2)).2.1 =
    ((StreamState.mk (⟨16384, 100, some (fun _ => 1), 200, true⟩ : HandlerState)
      true 0).processNextChunk 512).1 from rfl, hslices]
  rw [chunkSlices_map_length 512 200 200 0 (fun _ => 1) (by omega)]
  rw [chunkLens_sum 512 200 200 0 (by omega) (by omega) (by omega)]

/-- C8 counterexample: declared total 9, a single 5-byte fragment, then
delivery: after `handleBody` the accumulator IS marked ready
(`_bufferReady = true` — readiness tracks allocation success, not
completeness), and the streaming `handleRequest` does not answer 400: it
serves, invoking the user callback on the 9 allocated bytes (5 written
plus 4 indeterminate) — a partial payload. -/
theorem partial_body_counterexample :
    ((HandlerState.initial 16384).handleBody [65, 66, 67, 68, 69] 0 9
      (some (fun _ => 0))).bufferReady = true ∧
    (StreamState.handleRequest 512
      ⟨(HandlerState.initial 16384).handleBody [65, 66, 67, 68, 69] 0 9
        (some (fun _ => 0)), false, 0⟩ true).1 = .served ∧
    ((StreamState.handleRequest 512
      ⟨(HandlerState.initial 16384).handleBody [65, 66, 67, 68, 69] 0 9
        (some (fun _ => 0)), false, 0⟩ true).2.1.map (fun x => x.2.length)).sum = 9 ∧
    (StreamState.handleRequest 512
      ⟨(HandlerState.initial 16384).handleBody [65, 66, 67, 68, 69] 0 9
        (some (fun _ => 0)), false, 0⟩ true).2.1 ≠ [] := by
  have hbody : (HandlerState.initial 16384).handleBody [65, 66, 67, 68, 69] 0 9
      (some (fun _ => 0)) =
      (⟨16384, 9, some (memcpyAt (fun _ => 0) 0 [65, 66, 67, 68, 69]), 9, true⟩ :
        HandlerState) := rfl
  rw [hbody]
  have hserved := streamHandleRequest_served 512
    ⟨⟨16384, 9, some (memcpyAt (fun _ => 0) 0 [65, 66, 67, 68, 69]), 9, true⟩, false, 0⟩
    (memcpyAt (fun _ => 0) 0 [65, 66, 67, 68, 69]) (by decide) rfl rfl (by decide)
  have hslices := processNextChunk_slices 512 9
    (StreamState.mk
      ⟨16384, 9, some (memcpyAt (fun _ => 0) 0 [65, 66, 67, 68, 69]), 9, true⟩ true 0)
    (memcpyAt (fun _ => 0) 0 [65, 66, 67, 68, 69]) (by decide) rfl rfl
  rw [hserved]
  refine ⟨rfl, rfl, ?_, ?_⟩
  · rw [show ((Outcome.served,
        ((StreamState.mk
          (⟨16384, 9, some (memcpyAt (fun _ => 0) 0 [65, 66, 67, 68, 69]), 9, true⟩ :
            HandlerState) true 0).processNextChunk 512).1,
        ((StreamState.mk
          (⟨16384, 9, some (memcpyAt (fun _ => 0) 0 [65, 66, 67, 68, 69]), 9, true⟩ :
            HandlerState) true 0).processNextChunk 512).2)).2.1 =
      ((StreamState.mk
        (⟨16384, 9, some (memcpyAt (fun _ => 0) 0 [65, 66, 67, 68, 69]), 9, true⟩ :
          HandlerState) true 0).processNextChunk 512).1 from rfl, hslices]
    rw [chunkSlices_map_length 512 9 9 0 _ (by omega)]
    rw [chunkLens_sum 512 9 9 0 (by omega) (by omega) (by omega)]
  · rw [show ((Outcome.served,
        ((StreamState.mk
          (⟨16384, 9, some (memcpyAt (fun _ => 0) 0 [65, 66, 67, 68, 69]), 9, true⟩ :
            HandlerState) true 0).processNextChunk 512).1,
        ((StreamState.mk
          (⟨16384, 9, some (memcpyAt (fun _ => 0) 0 [65, 66, 67, 68, 69]), 9, true⟩ :
            HandlerState) true 0).processNextChunk 512).2)).2.1 =
      ((StreamState.mk
        (⟨16384, 9, some (memcpyAt (fun _ => 0) 0 [65, 66, 67, 68, 69]), 9, true⟩ :
          HandlerState) true 0).processNextChunk 512).1 from rfl, hslices]
    rw [chunkSlices_pos 512 9 0 _ (by omega)]
    simp

/-- C8 amended: with declared total `T`, a single fragment of `L < T`
bytes (`0 < L`) already makes the accumulator ready — `_bufferReady`
tracks allocation success, not completeness.  One-shot delivery then
proceeds to the parser: it answers 400 `invalidJson` exactly when the
parser rejects the partially-filled buffer, and otherwise invokes the
callback; streamed delivery serves the whole allocation (written prefix
plus indeterminate suffix, `T` bytes in total) to the callback.  Neither
path answers 400 `invalidBody`, neither crashes, and no access outside the
allocation occurs. -/
theorem partial_body_behavior (M T C : Nat) (data : List Nat) (fresh : Nat → Nat)
    (p : Bool) (hne : ¬ data.length = 0) (hlt : data.length < T) (hTM : T ≤ M)
    (hC : 0 < C) :
    ((HandlerState.initial M).handleBody data 0 T (some fresh)).bufferReady = true ∧
    ((HandlerState.initial M).handleBody data 0 T (some fresh)).tempObjectSize = T ∧
    (((HandlerState.initial M).handleBody data 0 T (some fresh)).handleRequest true p).1 =
      (if p then Outcome.served else Outcome.invalidJson) ∧
    (((HandlerState.initial M).handleBody data 0 T (some fresh)).handleRequest
      true p).2.2 = p ∧
    (StreamState.handleRequest C
      ⟨(HandlerState.initial M).handleBody data 0 T (some fresh), false, 0⟩ true).1 =
      .served ∧
    ((StreamState.handleRequest C
      ⟨(HandlerState.initial M).handleBody data 0 T (some fresh), false, 0⟩ true).2.1.map
        (fun x => x.2.length)).sum = T := by
  have hstep := handleBody_fresh (HandlerState.initial M) fresh (0, data) T rfl hne
    (by omega) (show T ≤ (HandlerState.initial M).maxContentLength from hTM)
  dsimp only at hstep
  have hs1 : (HandlerState.initial M).handleBody data 0 T (some fresh) =
      (⟨M, T, some (applyFrag T fresh (0, data)), T, true⟩ : HandlerState) := hstep
  rw [hs1]
  have hdel := handleRequest_delivers
    (⟨M, T, some (applyFrag T fresh (0, data)), T, true⟩ : HandlerState) p
    (by dsimp only; omega) rfl rfl (by dsimp only; omega)
  have hserved := streamHandleRequest_served C
    ⟨⟨M, T, some (applyFrag T fresh (0, data)), T, true⟩, false, 0⟩
    (applyFrag T fresh (0, data)) (by dsimp only; omega) rfl rfl (by dsimp only; omega)
  have hslices := processNextChunk_slices C T
    (StreamState.mk (⟨M, T, some (applyFrag T fresh (0, data)), T, true⟩ : HandlerState)
      true 0)
    (applyFrag T fresh (0, data)) (by dsimp only; omega) rfl rfl
  refine ⟨rfl, rfl, ?_, ?_, ?_, ?_⟩
  · rw [hdel]
    cases p
    · rfl
    · rfl
  · rw [hdel]
    cases p
    · rfl
    · rfl
  · rw [hserved]
  · rw [hserved]
    rw [show ((Outcome.served,
        ((StreamState.mk
          (⟨M, T, some (applyFrag T fresh (0, data)), T, true⟩ : HandlerState)
          true 0).processNextChunk C).1,
        ((StreamState.mk
          (⟨M, T, some (applyFrag T fresh (0, data)), T, true⟩ : HandlerState)
          true 0).processNextChunk C).2)).2.1 =
      ((StreamState.mk
        (⟨M, T, some (applyFrag T fresh (0, data)), T, true⟩ : HandlerState)
        true 0).processNextChunk C).1 from rfl, hslices]
    rw [chunkSlices_map_length C T T 0 _ (by omega)]
    rw [chunkLens_sum C T T 0 (by omega) (by omega) hC]
    omega

/-- Witness for `partial_body_behavior` (scenario D: T = 9, one 5-byte
fragment). -/
theorem partial_body_behavior_witness :
    ((HandlerState.initial 16384).handleBody [65, 66, 67, 68, 69] 0 9
      (some (fun _ => 0))).bufferReady = true ∧
    ((HandlerState.initial 16384).handleBody [65, 66, 67, 68, 69] 0 9
      (some (fun _ => 0))).tempObjectSize = 9 ∧
    (((HandlerState.initial 16384).handleBody [65, 66, 67, 68, 69] 0 9
      (some (fun _ => 0))).handleRequest true false).1 =
      (if false then Outcome.served else Outcome.invalidJson) ∧
    (((HandlerState.initial 16384).handleBody [65, 66, 67, 68, 69] 0 9
      (some (fun _ => 0))).handleRequest true false).2.2 = false ∧
    (StreamState.handleRequest 512
      ⟨(HandlerState.initial 16384).handleBody [65, 66, 67, 68, 69] 0 9
        (some (fun _ => 0)), false, 0⟩ true).1 = .served ∧
    ((StreamState.handleRequest 512
      ⟨(HandlerState.initial 16384).handleBody [65, 66, 67, 68, 69] 0 9
        (some (fun _ => 0)), false, 0⟩ true).2.1.map (fun x => x.2.length)).sum = 9 :=
  partial_body_behavior 16384 9 512 [65, 66, 67, 68, 69] (fun _ => 0) false
    (by decide) (by decide) (by decide) (by decide)

/-- C4 amended: the accumulator is reset only on the delivery paths — the
one-shot handler cleans up after reaching the parser (on both parse
failure and success), and the streaming handler cleans up when the chunk
walk finishes — while the early-return outcomes (500 no-handler, 413 too
large, 400 invalid body) leave the accumulator state untouched. -/
theorem handleRequest_reset_on_delivery (s : HandlerState) (p : Bool)
    (st : StreamState) (C : Nat) (bufs : Nat → Nat)
    (h1 : s.contentLength ≤ s.maxContentLength) (h2 : s.bufferReady = true)
    (h3 : s.tempObject.isNone = false) (h4 : ¬ s.contentLength = 0)
    (g1 : st.base.contentLength ≤ st.base.maxContentLength)
    (g2 : st.base.bufferReady = true) (g3 : st.base.tempObject = some bufs)
    (g4 : ¬ st.base.tempObjectSize = 0) :
    (s.handleRequest true p).2.1 = s.cleanup ∧
    (s.handleRequest false p).2.1 = s ∧
    (StreamState.handleRequest C st true).2.2.base.tempObject = none ∧
    (StreamState.handleRequest C st true).2.2.base.tempObjectSize = 0 ∧
    (StreamState.handleRequest C st true).2.2.base.bufferReady = false := by
  have hclean := processNextChunk_cleans C (StreamState.mk st.base true 0)
  have hserved := streamHandleRequest_served C st bufs g1 g2 g3 g4
  refine ⟨?_, rfl, ?_, ?_, ?_⟩
  · rw [handleRequest_delivers s p h1 h2 h3 h4]
    cases p
    · rfl
    · rfl
  · rw [hserved]
    exact hclean.1
  · rw [hserved]
    exact hclean.2.1
  · rw [hserved]
    exact hclean.2.2.1

/-- Witness for `handleRequest_reset_on_delivery`. -/
theorem handleRequest_reset_on_delivery_witness :
    ((⟨10, 5, some (fun _ => 1), 5, true⟩ : HandlerState).handleRequest true false).2.1 =
      (⟨10, 5, some (fun _ => 1), 5, true⟩ : HandlerState).cleanup ∧
    ((⟨10, 5, some (fun _ => 1), 5, true⟩ : HandlerState).handleRequest false false).2.1 =
      (⟨10, 5, some (fun _ => 1), 5, true⟩ : HandlerState) ∧
    (StreamState.handleRequest 512
      ⟨⟨10, 5, some (fun _ => 1), 5, true⟩, false, 0⟩ true).2.2.base.tempObject = none ∧
    (StreamState.handleRequest 512
      ⟨⟨10, 5, some (fun _ => 1), 5, true⟩, false, 0⟩ true).2.2.base.tempObjectSize = 0 ∧
    (StreamState.handleRequest 512
      ⟨⟨10, 5, some (fun _ => 1), 5, true⟩, false, 0⟩ true).2.2.base.bufferReady = false :=
  handleRequest_reset_on_delivery ⟨10, 5, some (fun _ => 1), 5, true⟩ false
    ⟨⟨10, 5, some (fun _ => 1), 5, true⟩, false, 0⟩ 512 (fun _ => 1)
    (by decide) rfl rfl (by decide) (by decide) rfl rfl (by decide)

/-- C9: `_fillBuffer` mutates no response state (the state after the call
is the state before it), so a repeated call with the same `_sentLength`
and destination yields the identical output bytes and return value; and it
returns 0, writing nothing, whenever the payload is invalid or
`_sentLength` is at or past the payload length. -/
theorem fillBuffer_pure_idempotent (r : RespState) (data : Nat → Nat) (len : Nat) :
    (r.fillBuffer data len).2.2 = r ∧
    ((r.fillBuffer data len).2.2).fillBuffer data len = r.fillBuffer data len ∧
    (r.isValid = false → (r.fillBuffer data len).1 = data ∧
      (r.fillBuffer data len).2.1 = 0) ∧
    (r.jsonBuffer.length ≤ r.sentLength → (r.fillBuffer data len).1 = data ∧
      (r.fillBuffer data len).2.1 = 0) := by
  have hstate : ∀ (r' : RespState) (d : Nat → Nat) (l : Nat),
      (r'.fillBuffer d l).2.2 = r' := by
    intro r' d l
    unfold RespState.fillBuffer
    split
    · rfl
    · try dsimp only
      split
      · rfl
      · rfl
  refine ⟨hstate r data len, ?_, ?_, ?_⟩
  · rw [hstate r data len]
  · intro h
    unfold RespState.fillBuffer
    rw [if_pos (Or.inr h)]
    exact ⟨rfl, rfl⟩
  · intro h
    unfold RespState.fillBuffer
    by_cases h0 : len = 0 ∨ r.isValid = false
    · rw [if_pos h0]
      exact ⟨rfl, rfl⟩
    · rw [if_neg h0]
      try dsimp only
      rw [if_pos h]
      exact ⟨rfl, rfl⟩

/-- Witness for `fillBuffer_pure_idempotent`. -/
theorem fillBuffer_pure_idempotent_witness :
    ((⟨[3, 4], false, 0, 0⟩ : RespState).fillBuffer (fun _ => 0) 2).2.2 =
      (⟨[3, 4], false, 0, 0⟩ : RespState) ∧
    ((⟨[3, 4], false, 0, 0⟩ : RespState).fillBuffer (fun _ => 0) 2).1 = (fun _ => 0) ∧
    ((⟨[3, 4], false, 0, 0⟩ : RespState).fillBuffer (fun _ => 0) 2).2.1 = 0 :=
  have h := fillBuffer_pure_idempotent ⟨[3, 4], false, 0, 0⟩ (fun _ => 0) 2
  ⟨h.1, (h.2.2.1 rfl).1, (h.2.2.1 rfl).2⟩

end AsyncJson
